import Mathlib

/-!
Shallow embedding of the template-understanding and field-mapping core of the
BANK-DOCUMENT-AUTOMATION repository (`src/rag_service.py`, `src/mapping_engine.py`,
`src/main.py`), together with theorems settling the frozen claims about it.

Modelling conventions:
* Python `float` distances/coordinates are modelled as `ℚ`; the tier thresholds
  0.40 / 0.75 / 0.05 and geometric constants are exact rationals.
* Python dict fields accessed through `.get` are modelled as `Option String`
  (absent key / `None` value ↦ `none`).
* Python's `None` placeholder rows in `search_canonical_field_batch` are
  modelled as `[]`: the only consumer (`map_template_fields`) tests candidate
  lists for truthiness, under which `None` and `[]` behave identically.
-/

namespace BankDoc

/-- Metadata attached to one similarity-search candidate
(`rag_service.py`, entries of `metadatas` / of the synonym fast-path hit). -/
structure CandMeta where
  field_id : String
  canonical_name : String
  data_type : String
deriving DecidableEq, Repr

/-- One similarity-search candidate as consumed by the mapping engine:
`{"field_id": ..., "score": distance, "metadata": {...}}`. -/
structure Candidate where
  field_id : String
  score : ℚ
  metadata : CandMeta
deriving DecidableEq, Repr

/-- The `mapping_proposal` sub-dict written by `map_template_fields` and read
back by `update_mapping`. -/
structure Proposal where
  canonical_field_id : Option String
  suggested_new_field_name : String
  confidence : String
  explanation : String
  candidates : List String
  scores : List ℚ
deriving DecidableEq, Repr

/-- A field / mapping-record dict as it flows through `map_template_fields`,
`update_mapping` and `UniversalDocumentFiller.fill`.  Every key that any of the
embedded code paths reads or writes is present; `Option` encodes key absence
(or a `None` value, which the code never distinguishes via `.get`). -/
structure MapRec where
  id : Option String := none
  name : Option String := none
  label : Option String := none
  «section» : Option String := none
  placeholder : Option String := none
  context : Option String := none
  ftype : Option String := none
  source : Option String := none
  export_options : List String := []
  mapping_status : Option String := none
  confidence : Option String := none
  mapping_source : Option String := none
  original_name : Option String := none
  reviewed_by : Option String := none
  mapping_proposal : Option Proposal := none
deriving DecidableEq, Repr

/-- Python string truthiness for `Option String` values
(`None` and `""` are falsy). -/
def pyTruthy : Option String → Bool
  | none => false
  | some s => s ≠ ""

/-- Python `a if a else b` for optional strings (`best_match if best_match else field_id`). -/
def pyOr (a b : Option String) : Option String :=
  match a with
  | some s => if s = "" then b else some s
  | none => b

/-! ### Python string primitives

The source leans on `str.strip`, `str.lower`, `str.replace`, `str.split` and
slicing.  These are given structurally recursive character-list
implementations (so concrete runs reduce inside the kernel); on the ASCII
data this program handles they agree with the Python operations. -/

/-- Python `str.strip()` on a character list. -/
def pyStripList (cs : List Char) : List Char :=
  ((cs.dropWhile Char.isWhitespace).reverse.dropWhile Char.isWhitespace).reverse

/-- Python `str.strip()`. -/
def pyStrip (s : String) : String := (pyStripList s.toList).asString

/-- Python `str.lower()` (per-character, as Python does on ASCII). -/
def pyLower (s : String) : String := (s.toList.map Char.toLower).asString

/-- Python `str.replace(old, new)` on character lists: replace all non-overlapping
occurrences left to right (callers only use non-empty `old`).  The first
argument is fuel, structurally decreasing so that concrete runs reduce in the
kernel; every step consumes at least one input character, so fuel equal to
the input length never runs out. -/
def replaceList (old new : List Char) : ℕ → List Char → List Char
  | _, [] => []
  | 0, cs => cs
  | fuel + 1, c :: cs =>
    if old.isPrefixOf (c :: cs) ∧ old ≠ [] then
      new ++ replaceList old new fuel (cs.drop (old.length - 1))
    else c :: replaceList old new fuel cs

/-- Python `str.replace(old, new)`. -/
def pyReplace (s old new : String) : String :=
  (replaceList old.toList new.toList s.toList.length s.toList).asString

/-- Worker for `str.split(sep)` with non-empty `sep`: `acc` holds the current
chunk reversed; fuelled like `replaceList`. -/
def splitOnAux (sep : List Char) : ℕ → List Char → List Char → List (List Char)
  | _, [], acc => [acc.reverse]
  | 0, cs, acc => [acc.reverse ++ cs]
  | fuel + 1, c :: cs, acc =>
    if sep.isPrefixOf (c :: cs) ∧ sep ≠ [] then
      acc.reverse :: splitOnAux sep fuel (cs.drop (sep.length - 1)) []
    else splitOnAux sep fuel cs (c :: acc)

/-- Python `str.split(sep)` for a non-empty separator. -/
def pySplit (s sep : String) : List String :=
  (splitOnAux sep.toList s.toList.length s.toList []).map List.asString

/-- Python slicing `s[-n:]`: the last `n` characters (all of `s` when it is
shorter). -/
def pyTakeRight (s : String) (n : ℕ) : String :=
  (s.toList.drop (s.toList.length - n)).asString

/-! ## `rag_service.py` — `RealRAGService.search_canonical_field_batch` -/

/-- The fixed synonym dictionary of `search_canonical_field_batch`
(lower-cased label → canonical field id), verbatim from the source. -/
def synonymMap : List (String × String) :=
  [("dob", "date_of_birth"),
   ("date of birth", "date_of_birth"),
   ("birth date", "date_of_birth"),
   ("fname", "first_name"),
   ("first name", "first_name"),
   ("given name", "first_name"),
   ("lname", "last_name"),
   ("last name", "last_name"),
   ("surname", "last_name"),
   ("family name", "last_name"),
   ("email", "email_address"),
   ("e-mail", "email_address"),
   ("phone", "mobile_number"),
   ("mobile", "mobile_number"),
   ("cell", "mobile_number"),
   ("address", "residential_address"),
   ("residence", "residential_address"),
   ("nric", "national_id"),
   ("id number", "national_id"),
   ("passport", "passport_number"),
   ("nationality", "nationality"),
   ("citizenship", "nationality"),
   ("gender", "gender"),
   ("sex", "gender"),
   ("marital status", "marital_status"),
   ("income", "annual_income"),
   ("occupation", "occupation"),
   ("job title", "occupation"),
   ("employer", "employer_name"),
   ("company", "employer_name"),
   ("acc no", "account_number"),
   ("account no", "account_number"),
   ("account number", "account_number")]

/-- Lookup `label_clean in synonym_map` / `synonym_map[label_clean]`. -/
def synLookup (k : String) : Option String :=
  (synonymMap.find? (fun p => p.1 == k)).map (·.2)

/-- Label extraction and normalisation performed on each query text before the
synonym lookup: split on `"Field Label:"` when present, take the part before
the first `"."`, strip and lower-case it, then replace underscores by spaces
and strip again.  When the marker is absent the raw text is used (not
lower-cased), mirroring the source exactly. -/
def extractLabel (text : String) : String :=
  let label_part :=
    match pySplit text "Field Label:" with
    | _ :: second :: _ => pyLower (pyStrip ((pySplit second ".").headD ""))
    | _ => text
  pyStrip (pyReplace label_part "_" " ")

/-- Python `str.title()` restricted to space-separated words (sufficient for
the canonical ids fed to it, which are `[a-z0-9_]` with underscores already
replaced by spaces). -/
def titleWords (s : String) : String :=
  String.intercalate " " ((pySplit s " ").map (fun w =>
    match w.toList with
    | [] => ""
    | c :: cs => (c.toUpper :: cs.map Char.toLower).asString))

/-- The synthetic "perfect match" candidate fabricated for a synonym hit:
score 0.05, metadata derived from the canonical id. -/
def synCandidate (canonical_id : String) : Candidate :=
  { field_id := canonical_id,
    score := 1/20,
    metadata :=
      { field_id := canonical_id,
        canonical_name := titleWords (pyReplace canonical_id "_" " "),
        data_type := "text" } }

/-- Synonym fast-path test for one query text. -/
def synHit (text : String) : Option Candidate :=
  (synLookup (extractLabel text)).map synCandidate

/-- Distribution of the one-shot vector-search results back onto the query
positions: a synonym hit occupies its slot with the fabricated singleton list,
every other slot consumes the next vector-search row in order; exhausted rows
leave the Python `None` placeholder, modelled as `[]`. -/
def distribute : List String → List (List Candidate) → List (List Candidate)
  | [], _ => []
  | q :: qs, vres =>
    match synHit q with
    | some c => [c] :: distribute qs vres
    | none =>
      match vres with
      | r :: vrest => r :: distribute qs vrest
      | [] => [] :: distribute qs []

/-- The vector queries actually submitted to the schema collection: exactly
the query texts with no synonym hit, in order. -/
def vectorQueries (query_texts : List String) : List String :=
  query_texts.filter (fun q => (synHit q).isNone)

/-- Embeds `RealRAGService.search_canonical_field_batch`.  `is_ready` is the
`self.is_ready` flag set at construction; `vsearch` abstracts
`self.schema_collection.query` (one candidate row per submitted query). -/
def search_canonical_field_batch (is_ready : Bool)
    (vsearch : List String → List (List Candidate))
    (query_texts : List String) : List (List Candidate) :=
  if !is_ready || query_texts.isEmpty then
    query_texts.map (fun _ => [])
  else
    distribute query_texts (vsearch (vectorQueries query_texts))

/-! ## `mapping_engine.py` — `DynamicMappingEngine.map_template_fields` -/

/-- Computes `field.get('id', field.get('name'))`. -/
def fieldIdOf (f : MapRec) : Option String :=
  match f.id with
  | some s => some s
  | none => f.name

/-- The `saved_map` dictionary built from the stored mapping list: each record
is inserted under its `id` and under its `name`; later insertions overwrite
earlier ones, so a lookup returns the last record whose `id` or `name` equals
the key.  A `none` key (field with neither `id` nor `name`) finds nothing. -/
def savedLookup (saved : List MapRec) : Option String → Option MapRec
  | none => none
  | some k => (saved.filter (fun m => m.id == some k || m.name == some k)).getLast?

/-- The historical-preservation test of the first loop: the saved-map entry for
the field's id, provided its `mapping_status` is `approved` or
`manual_override`; `none` when the field needs fresh analysis. -/
def classify (saved : List MapRec) (f : MapRec) : Option MapRec :=
  match savedLookup saved (fieldIdOf f) with
  | some e =>
    if e.mapping_status == some "approved" || e.mapping_status == some "manual_override"
    then some e else none
  | none => none

/-- The `field.update({...})` of the preservation branch: all critical
metadata is copied from the stored record (`mapping_source` defaulting to
`historical`, `confidence` to `High`).  Python reads
`existing['mapping_proposal']` by subscript; records written by this engine
always carry a proposal, and the copy is modelled on the `Option`. -/
def preserveUpdate (f existing : MapRec) : MapRec :=
  { f with
    mapping_proposal := existing.mapping_proposal,
    name := existing.name,
    mapping_status := existing.mapping_status,
    mapping_source := some (existing.mapping_source.getD "historical"),
    reviewed_by := existing.reviewed_by,
    confidence := some (existing.confidence.getD "High") }

/-- The enhanced query string built for a field that needs analysis. -/
def buildQuery (f : MapRec) : String :=
  "Field Label: " ++ f.label.getD "" ++ ". Context: " ++ f.context.getD "" ++
  ". Section: " ++ f.«section».getD "" ++ ". Placeholder: " ++ f.placeholder.getD ""

/-- Two-decimal rendering of a distance, standing in for Python's
`f"{distance:.2f}"` (round-half-up on the exact rational). -/
def fmt2 (q : ℚ) : String :=
  let n : Int := (q * 100 + 1/2).floor
  toString (n / 100) ++ "." ++
    (if n % 100 < 10 then "0" else "") ++ toString (n % 100)

/-- The values assigned by one pass of the confidence-tier branch
(`best_match`, `confidence`, `source`, `mapping_status`, `explanation`). -/
structure TierResult where
  best_match : Option String
  confidence : String
  source : String
  status : String
  explanation : String
deriving DecidableEq, Repr

/-- The tier decision for one candidate list: initial defaults, overwritten by
the `< 0.40` / `< 0.75` / weak branches when candidates exist, with the
ambiguity note when the top two distances differ by less than 0.05. -/
def tierOf : List Candidate → TierResult
  | [] => ⟨none, "Low", "Unmapped", "suggest_new", "No strong semantic match found."⟩
  | top :: rest =>
    let distance := top.score
    if distance < 2/5 then
      ⟨some top.metadata.field_id, "High", "auto_embedding_strong", "auto",
       "Strong semantic match (" ++ fmt2 distance ++ ")"⟩
    else if distance < 3/4 then
      let base := "Likely match (" ++ fmt2 distance ++ "), needs review."
      let expl :=
        match rest with
        | second :: _ =>
          if |top.score - second.score| < 1/20 then
            base ++ " Ambiguous: Could also be " ++ second.metadata.canonical_name ++ "."
          else base
        | [] => base
      ⟨some top.metadata.field_id, "Medium", "auto_embedding_weak", "pending_review", expl⟩
    else
      ⟨none, "Low", "Unmapped", "suggest_new", "Weak match (" ++ fmt2 distance ++ ")."⟩

/-- The confidence-tier branch of the second loop: given the candidate list
returned for a field's query, compute the updated field exactly as
`field.update({...})` does (thresholds 0.40 / 0.75, ambiguity margin 0.05,
fallback of `name` to the field id when no match is accepted). -/
def applyCandidates (f : MapRec) (candidates : List Candidate) : MapRec :=
  let field_id := fieldIdOf f
  let t := tierOf candidates
  { f with
    original_name := field_id,
    name := pyOr t.best_match field_id,
    mapping_status := some t.status,
    confidence := some t.confidence,
    mapping_source := some t.source,
    mapping_proposal := some
      { canonical_field_id := t.best_match,
        suggested_new_field_name :=
          pyReplace (pyLower (f.label.getD (field_id.getD ""))) " " "_",
        confidence := t.confidence,
        explanation := t.explanation,
        candidates := candidates.map (fun c => c.metadata.field_id),
        scores := candidates.map (·.score) } }

/-- The per-field pass of `map_template_fields`: preserved fields are updated
from their stored record, the others consume the batch-search rows in order
(`zip(to_process_indices, batch_results)`); when the rows run out the zip
stops and the remaining fields are left untouched. -/
def mapGo (saved : List MapRec) : List MapRec → List (List Candidate) → List MapRec
  | [], _ => []
  | f :: fs, rs =>
    match classify saved f with
    | some e => preserveUpdate f e :: mapGo saved fs rs
    | none =>
      match rs with
      | r :: rest => applyCandidates f r :: mapGo saved fs rest
      | [] => f :: mapGo saved fs []

/-- The batch of query strings assembled by the first loop: one query per
field that is not historically preserved, in field order. -/
def queriesFor (saved : List MapRec) (fields : List MapRec) : List String :=
  (fields.filter (fun f => (classify saved f).isNone)).map buildQuery

/-- Embeds `DynamicMappingEngine.map_template_fields`: identify preserved fields,
batch-search the rest, merge tier results back in positional order.  The
returned list is also what `save_mappings` persists. -/
def map_template_fields (is_ready : Bool)
    (vsearch : List String → List (List Candidate))
    (saved : List MapRec) (template_fields : List MapRec) : List MapRec :=
  mapGo saved template_fields
    (search_canonical_field_batch is_ready vsearch (queriesFor saved template_fields))

/-! ## `mapping_engine.py` — `DynamicMappingEngine.update_mapping` -/

/-- One correction-log entry (`log_correction`); the wall-clock timestamp is
not modelled. -/
structure Correction where
  template : String
  field_label : String
  ai_guess : String
  human_correction : String
deriving DecidableEq, Repr

/-- Computes `field.get('original_name', field.get('id', ''))`: the key under which
`update_mapping` locates a record. -/
def recordFid (f : MapRec) : String :=
  match f.original_name with
  | some s => s
  | none => f.id.getD ""

/-- The in-place overwrite applied to the located record.  Python assigns
`found['mapping_proposal']['canonical_field_id']` by subscript; records
written by this engine always carry a proposal, and a missing one is modelled
as leaving `mapping_proposal` at `none`. -/
def overwriteRecord (canonical_id status user : String) (f : MapRec) : MapRec :=
  { f with
    name := some canonical_id,
    mapping_proposal := f.mapping_proposal.map
      (fun p => { p with canonical_field_id := some canonical_id }),
    mapping_status := some status,
    reviewed_by := some user,
    mapping_source := some "manual_correction",
    confidence := some "High" }

/-- The correction-log entries appended for the located record: exactly one
when the last automatic proposal is truthy and differs from the supplied id,
none otherwise. -/
def correctionEntries (template_id field_id canonical_id : String) (found : MapRec) :
    List Correction :=
  let original_guess := found.mapping_proposal.bind (·.canonical_field_id)
  if pyTruthy original_guess && original_guess != some canonical_id then
    [{ template := template_id,
       field_label := found.label.getD "",
       ai_guess := original_guess.getD "",
       human_correction := canonical_id }]
  else []

/-- Result of `update_mapping`: the list handed to `save_mappings`, the
correction-log entries appended, and the returned value (always `True`). -/
structure UpdateResult where
  mappings : List MapRec
  log : List Correction
  ok : Bool
deriving DecidableEq, Repr

/-- The find-and-update loop of `update_mapping`: the first record whose
`original_name` (falling back to `id`) equals `field_id` is overwritten and
possibly logged; all others are untouched.  With no match the list is saved
unchanged and the call still returns `True`. -/
def updateAt (template_id field_id canonical_id status user : String) :
    List MapRec → List MapRec × List Correction
  | [] => ([], [])
  | f :: fs =>
    if recordFid f == field_id then
      (overwriteRecord canonical_id status user f :: fs,
       correctionEntries template_id field_id canonical_id f)
    else
      ((f :: (updateAt template_id field_id canonical_id status user fs).1),
       (updateAt template_id field_id canonical_id status user fs).2)

/-- Embeds `DynamicMappingEngine.update_mapping` (status defaults to
`manual_override` and user to `human` at the Python call sites). -/
def update_mapping (template_id field_id canonical_id status user : String)
    (mapped_fields : List MapRec) : UpdateResult :=
  { mappings := (updateAt template_id field_id canonical_id status user mapped_fields).1,
    log := (updateAt template_id field_id canonical_id status user mapped_fields).2,
    ok := true }

/-! ## `main.py` — section inference in `analyze_template` -/

/-- A widget rectangle `[x1, y1, x2, y2]` in page units (bottom-left origin). -/
structure Rect where
  x1 : ℚ
  y1 : ℚ
  x2 : ℚ
  y2 : ℚ
deriving DecidableEq, Repr

/-- The header scan of `analyze_template`: walk the page's headers (already
sorted top-to-bottom, i.e. by descending `y`), overwrite the running section
with every header strictly above `field_y`, and stop at the first header at or
below it. -/
def sectionScan (field_y : ℚ) : List (ℚ × String) → String → String
  | [], acc => acc
  | (hy, htext) :: rest, acc =>
    if hy > field_y then sectionScan field_y rest htext else acc

/-- Section inference for one field: `field_y` is
`max(float(rect[1]), float(rect[3]))` — the field's upper rectangle edge —
(0 when the field has no rectangle), and the scan starts from the default
`"General"`. -/
def detectSection (headers : List (ℚ × String)) (rect : Option Rect) : String :=
  let field_y :=
    match rect with
    | some r => max r.y1 r.y2
    | none => 0
  sectionScan field_y headers "General"

/-! ## `main.py` — `UniversalDocumentFiller.fill` dispatch -/

/-- A flat record is an association list (Python dict: unique keys, first
match wins on lookup). -/
def lookupRecord (record : List (String × String)) (k : String) : Option String :=
  (record.find? (fun p => p.1 == k)).map (·.2)

/-- The fixed truthy token set for checkbox values. -/
def truthyTokens : List String := ["true", "yes", "1", "on"]

/-- Routing decision for one mapped field in `UniversalDocumentFiller.fill`. -/
inductive FillAction where
  | setAcro (widget_name value : String)
  | overlay
  | skip
deriving DecidableEq, Repr

/-- The per-field body of the dispatch loop: look the canonical `name` (or
`id`) up in the record, skip empty values, route acroform fields to the native
update (checkboxes only when the lower-cased value is a truthy token, set to
the first export option with `/Yes` as fallback; non-truthy checkbox values
change nothing) and everything else to the overlay list. -/
def fillDecision (record : List (String × String)) (f : MapRec) : FillAction :=
  let key := f.name.getD (f.id.getD "")
  let val := (lookupRecord record key).getD ""
  if pyStrip val = "" then .skip
  else if f.source == some "acroform" && pyTruthy f.id then
    let internal_name := f.id.getD ""
    if f.ftype == some "checkbox" then
      if truthyTokens.contains (pyLower val) then
        .setAcro internal_name (f.export_options.headD "/Yes")
      else .skip
    else .setAcro internal_name val
  else .overlay

/-! ## `main.py` — `UniversalDocumentFiller._draw_text_field` -/

/-- The drawing parameters computed for one overlay field: clip rectangle,
font size `min(12, h * 0.8)`, draw position
`(x + 2, y + h/2 - font/2 + 1)`. -/
structure DrawParams where
  clip_x : ℚ
  clip_y : ℚ
  clip_w : ℚ
  clip_h : ℚ
  font_size : ℚ
  draw_x : ℚ
  draw_y : ℚ
deriving DecidableEq, Repr

/-- Embeds `_draw_text_field(c, text, x, y, w, h)` modulo the canvas calls: the text
is clipped to the rectangle `(x, y, w, h)` and drawn at the computed
position. -/
def draw_text_field (x y w h : ℚ) : DrawParams :=
  let max_font_size := min 12 (h * (4/5))
  { clip_x := x, clip_y := y, clip_w := w, clip_h := h,
    font_size := max_font_size,
    draw_x := x + 2,
    draw_y := y + h/2 - max_font_size/2 + 1 }

/-- The rectangle normalisation performed by `_apply_overlay` before calling
`_draw_text_field`: lower-left corner and absolute extents. -/
def overlayDrawParams (r : Rect) : DrawParams :=
  draw_text_field (min r.x1 r.x2) (min r.y1 r.y2) |r.x2 - r.x1| |r.y2 - r.y1|

/-! ## `main.py` — smart cache check of `analyze_template` -/

/-- The file-system facts the cache check of `analyze_template` consults. -/
structure CacheState where
  mapping_exists : Bool
  pdf_mtime : ℚ
  map_mtime : ℚ
  saved_mappings : Option (List MapRec)
deriving Repr

/-- The smart cache check: when the mapping file exists, is at least as new
as the template, and holds a non-empty `mappings` list, that list is returned
verbatim. -/
def analyzeCacheCheck (st : CacheState) : Option (List MapRec) :=
  if st.mapping_exists && decide (st.map_mtime ≥ st.pdf_mtime) then
    match st.saved_mappings with
    | some ms => if ms.length > 0 then some ms else none
    | none => none
  else none

/-- Embeds `analyze_template` at the granularity the cache claim needs: a cache hit
returns the stored list and performs no scan; otherwise the document is
scanned and the mapping engine runs.  The boolean records whether a scan
happened. -/
def analyze_template (st : CacheState) (scan : Unit → List MapRec)
    (engine : List MapRec → List MapRec) : List MapRec × Bool :=
  match analyzeCacheCheck st with
  | some ms => (ms, false)
  | none => (engine (scan ()), true)

/-! ## `main.py` — `fill_single_record` / `AuditLogger.log_run` -/

/-- Computes `safe_name`: keep letters, digits and spaces of the registered name,
strip, then replace spaces by underscores. -/
def sanitizeName (s : String) : String :=
  pyReplace (pyStrip ((s.toList.filter (fun c => c.isAlpha || c.isDigit || c == ' ')).asString)) " " "_"

/-- The run-history entry assembled by `fill_single_record` and appended by
`AuditLogger.log_run` (the wall-clock timestamp and the date directory are
passed in; directory prefixes of the output path are elided). -/
structure RunData where
  run_id : String
  template_id : String
  operator_id : String
  timestamp : String
  mapping_snapshot_id : String
  mapping_snapshot : List MapRec
  input_payload_keys : List String
  filled_pdf_path : String
deriving DecidableEq, Repr

/-- Construction of the audit entry from the input record: `operator_id` is
read from the record (default `system`), the snapshot id and output file name
embed the sanitised registered name and the last six characters of the run
id, and `input_payload_keys` is the record's key list. -/
def buildRunData (record : List (String × String))
    (template_filename run_id timestamp date_dir : String)
    (snapshot : List MapRec) : RunData :=
  let safe_name := sanitizeName ((lookupRecord record "registered_name").getD "Unknown")
  let suffix := pyTakeRight run_id 6
  { run_id := run_id,
    template_id := template_filename,
    operator_id := (lookupRecord record "operator_id").getD "system",
    timestamp := timestamp,
    mapping_snapshot_id := safe_name ++ "_" ++ suffix,
    mapping_snapshot := snapshot,
    input_payload_keys := record.map (·.1),
    filled_pdf_path := date_dir ++ "/" ++ safe_name ++ "_" ++ suffix ++ "_" ++ template_filename }

/-- The snapshot file name written by `AuditLogger.log_run`: the snapshot id
restricted to alphanumerics, underscore and hyphen, suffixed with
`_mapping.json`. -/
def snapshotFileName (snapshot_id : String) : String :=
  ((snapshot_id.toList.filter (fun c => c.isAlphanum || c == '_' || c == '-')).asString)
    ++ "_mapping.json"

/-! ## Spec-worded reference definitions (for refinement comparisons) -/

/-- Modelled from the spec: section inference as the spec states it — the
scan is keyed on the field's *lower* rectangle edge (`min` of the two
y-coordinates) instead of the code's upper edge. -/
def detectSectionSpecLower (headers : List (ℚ × String)) (rect : Option Rect) : String :=
  let field_y :=
    match rect with
    | some r => min r.y1 r.y2
    | none => 0
  sectionScan field_y headers "General"

/-- Modelled from the spec: the baseline height at which a band of height
`font` sits exactly vertically centred in a band of height `h` starting at
`y`. -/
def drawYCentered (y h font : ℚ) : ℚ := y + (h - font) / 2

/-! ## Counting helpers -/

/-- Number of fields of a list that are not historically preserved (these are
exactly the fields that contribute a query to the batch). -/
def npCount (saved : List MapRec) (l : List MapRec) : ℕ :=
  (l.filter (fun f => (classify saved f).isNone)).length

/-- Number of query texts with no synonym hit (these are exactly the queries
that consume a vector-search row). -/
def vCount (qs : List String) : ℕ :=
  (qs.filter (fun q => (synHit q).isNone)).length

/-! ## Concrete instances used by witnesses and counterexamples -/

/-- A vector-search stub that returns no candidates for any query. -/
def emptyVSearch : List String → List (List Candidate) :=
  fun qs => qs.map (fun _ => [])

/-- An interactive text field labelled "Date of Birth" with no historical
mapping (the end-to-end example of the spec). -/
def c1Field : MapRec :=
  { id := some "dob1", name := some "dob1", label := some "Date of Birth",
    «section» := some "Personal", placeholder := some "", context := some "ctx",
    ftype := some "text", source := some "acroform" }

/-- A candidate whose distance sits exactly on the 0.40 tier boundary. -/
def w2Cand : Candidate :=
  { field_id := "annual_income", score := 2/5,
    metadata := { field_id := "annual_income", canonical_name := "Annual Income",
                  data_type := "text" } }

/-- A bare field fed to the tier branch in the boundary witness. -/
def w2Field : MapRec :=
  { id := some "inc1", label := some "Income" }

/-- Stored record for field id `fldA`, approved with canonical name `canonX`. -/
def cex3A : MapRec :=
  { id := some "fldA", name := some "canonX", mapping_status := some "approved",
    label := some "Field A" }

/-- A later stored record whose resolved `name` is the literal string `fldA`,
shadowing `cex3A` in the saved map. -/
def cex3B : MapRec :=
  { id := some "fldB", name := some "fldA", mapping_status := some "auto" }

/-- The stored mapping list exhibiting the saved-map shadowing. -/
def cex3Saved : List MapRec := [cex3A, cex3B]

/-- The template field with id `fldA` re-analysed against `cex3Saved`. -/
def cex3Field : MapRec :=
  { id := some "fldA", label := some "Field A" }

/-- A stored approved record found un-shadowed in the preservation witness. -/
def w3Rec : MapRec :=
  { id := some "f1", name := some "first_name", mapping_status := some "approved",
    mapping_source := some "manual_correction", confidence := some "High",
    label := some "First Name" }

/-- The template field whose saved-map lookup finds `w3Rec`. -/
def w3Field : MapRec :=
  { id := some "f1", label := some "First Name" }

/-- The automatic proposal carried by the update-mapping witness record. -/
def w4Prop : Proposal :=
  { canonical_field_id := some "last_name",
    suggested_new_field_name := "surname", confidence := "Medium",
    explanation := "", candidates := ["last_name"], scores := [1/2] }

/-- The record located and corrected in the update-mapping witness. -/
def w4Rec : MapRec :=
  { id := some "f2", original_name := some "f2", name := some "last_name",
    label := some "Surname", mapping_status := some "pending_review",
    mapping_proposal := some w4Prop }

/-- A stored record in the cache-hit witness. -/
def w5Rec : MapRec :=
  { id := some "f3", name := some "email_address", mapping_status := some "auto" }

/-- The cache state of the cache-hit witness: mapping file present, strictly
newer than the template, holding one mapping. -/
def w5State : CacheState :=
  { mapping_exists := true, pdf_mtime := 100, map_mtime := 200,
    saved_mappings := some [w5Rec] }

/-- The acroform checkbox of the checkbox-fill witness. -/
def cb6Field : MapRec :=
  { id := some "chk1", name := some "is_married", ftype := some "checkbox",
    source := some "acroform", export_options := ["/Yes", "/On"] }

/-- The payload of the audit counterexample. -/
def cex9Rec : List (String × String) :=
  [("registered_name", "Alice"), ("operator_id", "bob")]

/-! ## Structural lemmas -/

theorem mapGo_length (saved : List MapRec) (fields : List MapRec)
    (rs : List (List Candidate)) : (mapGo saved fields rs).length = fields.length := by
  induction fields generalizing rs with
  | nil => simp [mapGo]
  | cons f fs ih =>
    cases h : classify saved f with
    | some e => simp [mapGo, h, ih]
    | none => cases rs with
      | nil => simp [mapGo, h, ih]
      | cons r rest => simp [mapGo, h, ih]

theorem mapGo_append (saved : List MapRec) (pre rest : List MapRec)
    (rs : List (List Candidate)) :
    mapGo saved (pre ++ rest) rs
      = mapGo saved pre rs ++ mapGo saved rest (rs.drop (npCount saved pre)) := by
  induction pre generalizing rs with
  | nil => simp [mapGo, npCount]
  | cons f fs ih =>
    cases h : classify saved f with
    | some e => simp [mapGo, h, ih, npCount, List.filter_cons]
    | none =>
      cases rs with
      | nil => simp [mapGo, h, ih, npCount, List.filter_cons]
      | cons r rs2 => simp [mapGo, h, ih, npCount, List.filter_cons]

theorem distribute_length (qs : List String) (vres : List (List Candidate)) :
    (distribute qs vres).length = qs.length := by
  induction qs generalizing vres with
  | nil => simp [distribute]
  | cons q qs ih =>
    cases h : synHit q with
    | some c => simp [distribute, h, ih]
    | none => cases vres with
      | nil => simp [distribute, h, ih]
      | cons r vrest => simp [distribute, h, ih]

theorem distribute_append (q1 q2 : List String) (vres : List (List Candidate)) :
    distribute (q1 ++ q2) vres
      = distribute q1 vres ++ distribute q2 (vres.drop (vCount q1)) := by
  induction q1 generalizing vres with
  | nil => simp [distribute, vCount]
  | cons q qs ih =>
    cases h : synHit q with
    | some c => simp [distribute, h, ih, vCount, List.filter_cons]
    | none =>
      cases vres with
      | nil => simp [distribute, h, ih, vCount, List.filter_cons]
      | cons r vrest => simp [distribute, h, ih, vCount, List.filter_cons]

theorem search_batch_ready (vs : List String → List (List Candidate))
    (qs : List String) (h : qs ≠ []) :
    search_canonical_field_batch true vs qs = distribute qs (vs (vectorQueries qs)) := by
  cases qs with
  | nil => exact absurd rfl h
  | cons q rest => simp [search_canonical_field_batch]

theorem search_batch_not_ready (vs : List String → List (List Candidate))
    (qs : List String) :
    search_canonical_field_batch false vs qs = qs.map (fun _ => []) := by
  simp [search_canonical_field_batch]

theorem queriesFor_append (saved : List MapRec) (l1 l2 : List MapRec) :
    queriesFor saved (l1 ++ l2) = queriesFor saved l1 ++ queriesFor saved l2 := by
  simp [queriesFor, List.filter_append]

theorem queriesFor_cons_unpreserved (saved : List MapRec) (f : MapRec) (l : List MapRec)
    (h : classify saved f = none) :
    queriesFor saved (f :: l) = buildQuery f :: queriesFor saved l := by
  simp [queriesFor, List.filter_cons, h]

theorem queriesFor_cons_preserved (saved : List MapRec) (f : MapRec) (l : List MapRec)
    (e : MapRec) (h : classify saved f = some e) :
    queriesFor saved (f :: l) = queriesFor saved l := by
  simp [queriesFor, List.filter_cons, h]

theorem queriesFor_length (saved : List MapRec) (l : List MapRec) :
    (queriesFor saved l).length = npCount saved l := by
  simp [queriesFor, npCount]

theorem synHit_of_synLookup (q : String) (cid : String)
    (h : synLookup (extractLabel q) = some cid) :
    synHit q = some (synCandidate cid) := by
  simp [synHit, h]

theorem synLookup_value_ne_empty (k : String) (cid : String)
    (h : synLookup k = some cid) : cid ≠ "" := by
  have hall : ∀ p ∈ synonymMap, p.2 ≠ "" := by decide
  rcases Option.map_eq_some'.mp h with ⟨p, hp, hv⟩
  exact hv ▸ hall p (List.mem_of_find?_eq_some hp)

theorem mapGo_append_get (saved : List MapRec) (pre rest : List MapRec)
    (rs : List (List Candidate)) :
    (mapGo saved (pre ++ rest) rs)[pre.length]?
      = (mapGo saved rest (rs.drop (npCount saved pre)))[0]? := by
  rw [mapGo_append, List.getElem?_append_right (mapGo_length saved pre rs).le]
  simp [mapGo_length]

theorem applyCandidates_syn (f : MapRec) (cid : String) (hcid : cid ≠ "") :
    (applyCandidates f [synCandidate cid]).name = some cid
    ∧ (applyCandidates f [synCandidate cid]).confidence = some "High"
    ∧ (applyCandidates f [synCandidate cid]).mapping_source = some "auto_embedding_strong"
    ∧ (applyCandidates f [synCandidate cid]).mapping_status = some "auto" := by
  refine ⟨?_, ?_, ?_, ?_⟩ <;>
    · simp only [applyCandidates, tierOf, synCandidate]
      norm_num [pyOr, hcid]

theorem sectionScan_eq_filter_last (fy : ℚ) (hs : List (ℚ × String)) (acc : String)
    (hsorted : hs.Chain' (fun a b => b.1 ≤ a.1)) :
    sectionScan fy hs acc
      = (((hs.filter (fun p => fy < p.1)).getLast?).map Prod.snd).getD acc := by
  induction hs generalizing acc with
  | nil => simp [sectionScan]
  | cons hd rest ih =>
    obtain ⟨hy, ht⟩ := hd
    have htail := hsorted.tail
    by_cases hpos : fy < hy
    · rw [sectionScan, if_pos hpos, ih ht htail]
      have hfc : ((hy, ht) :: rest).filter (fun p => fy < p.1)
          = (hy, ht) :: rest.filter (fun p => fy < p.1) := by
        simp [List.filter_cons, hpos]
      rw [hfc]
      cases hfr : rest.filter (fun p => fy < p.1) with
      | nil => simp [hfr]
      | cons x xs =>
        rw [List.getLast?_cons_cons]
        cases hlast : (x :: xs).getLast? with
        | none => simp at hlast
        | some y => simp [hlast]
    · rw [sectionScan, if_neg hpos]
      haveI : IsTrans (ℚ × String) (fun a b => b.1 ≤ a.1) :=
        ⟨fun _ _ _ h1 h2 => le_trans h2 h1⟩
      have hall : ∀ x ∈ rest, x.1 ≤ hy := by
        have hp := (List.chain'_iff_pairwise
          (R := fun a b : ℚ × String => b.1 ≤ a.1)).mp hsorted
        exact fun x hx => (List.pairwise_cons.mp hp).1 x hx
      have hnil : ((hy, ht) :: rest).filter (fun p => fy < p.1) = [] := by
        rw [List.filter_eq_nil_iff]
        intro x hx
        simp only [decide_eq_true_eq]
        rcases List.mem_cons.mp hx with hx | hx
        · subst hx; exact hpos
        · exact fun hlt => hpos (lt_of_lt_of_le hlt (hall x hx))
      simp [hnil]

/-! ## Claim theorems -/

/-- C1 (amended): provided the similarity-search service initialised
successfully, a non-preserved field whose extracted, normalised query label
matches the synonym table is mapped to the table's canonical id with `High`
confidence and status `auto` for *every* vector-search behaviour, and its
query is never submitted to the vector search — but its `mapping_source` is
`auto_embedding_strong`, because the synthetic 0.05 fast-path distance flows
through the strong-embedding tier. -/
theorem synonym_fast_path_maps_canonical
    (vs : List String → List (List Candidate))
    (saved pre post : List MapRec) (f : MapRec) (cid : String)
    (hf : classify saved f = none)
    (hsyn : synLookup (extractLabel (buildQuery f)) = some cid) :
    ((map_template_fields true vs saved (pre ++ f :: post))[pre.length]?).map
        (fun g => (g.name, g.confidence, g.mapping_source, g.mapping_status))
      = some (some cid, some "High", some "auto_embedding_strong", some "auto")
    ∧ buildQuery f ∉ vectorQueries (queriesFor saved (pre ++ f :: post)) := by
  have hcid : cid ≠ "" := synLookup_value_ne_empty _ _ hsyn
  have hhit : synHit (buildQuery f) = some (synCandidate cid) := synHit_of_synLookup _ _ hsyn
  have hQ : queriesFor saved (pre ++ f :: post)
      = queriesFor saved pre ++ buildQuery f :: queriesFor saved post := by
    rw [queriesFor_append, queriesFor_cons_unpreserved saved f post hf]
  constructor
  · have hne : queriesFor saved (pre ++ f :: post) ≠ [] := by
      rw [hQ]; simp
    rw [map_template_fields, mapGo_append_get, search_batch_ready vs _ hne]
    rw [hQ, distribute_append]
    have hcnt : npCount saved pre
        = (distribute (queriesFor saved pre)
            (vs (vectorQueries
              (queriesFor saved pre ++ buildQuery f :: queriesFor saved post)))).length := by
      rw [distribute_length, queriesFor_length]
    rw [hcnt, List.drop_left]
    have hdist : ∀ W : List (List Candidate),
        distribute (buildQuery f :: queriesFor saved post) W
          = [synCandidate cid] :: distribute (queriesFor saved post) W := by
      intro W
      simp [distribute, hhit]
    rw [hdist]
    obtain ⟨h1, h2, h3, h4⟩ := applyCandidates_syn f cid hcid
    simp [mapGo, hf, h1, h2, h3, h4]
  · intro hmem
    have hpred := List.of_mem_filter hmem
    rw [hhit] at hpred
    simp at hpred

/-- Witness for C1 (amended): the spec's own end-to-end example — label
"Date of Birth", no history, empty vector search — resolves to
`date_of_birth` / `High` / `auto` with `mapping_source`
`auto_embedding_strong`, and submits no vector query. -/
theorem synonym_fast_path_witness :
    ((map_template_fields true emptyVSearch [] ([] ++ c1Field :: []))[(0 : ℕ)]?).map
        (fun g => (g.name, g.confidence, g.mapping_source, g.mapping_status))
      = some (some "date_of_birth", some "High", some "auto_embedding_strong", some "auto")
    ∧ buildQuery c1Field ∉ vectorQueries (queriesFor [] ([] ++ c1Field :: [])) :=
  synonym_fast_path_maps_canonical emptyVSearch [] [] [] c1Field "date_of_birth"
    (by decide) (by decide)

/-- Counterexample for C1 as stated: for the synonym-matched field the
persisted `mapping_source` *is* `auto_embedding_strong`, and with the service
unavailable the synonym table is never consulted, so the mapping is not
independent of similarity-search availability (the field degrades to
`suggest_new` with `Low` confidence and keeps its own id). -/
theorem synonym_fast_path_source_cex :
    (map_template_fields true emptyVSearch [] [c1Field]).map
        (fun g => (g.name, g.mapping_source))
      = [(some "date_of_birth", some "auto_embedding_strong")]
    ∧ (map_template_fields false emptyVSearch [] [c1Field]).map
        (fun g => (g.name, g.confidence, g.mapping_status))
      = [(some "dob1", some "Low", some "suggest_new")] := by
  constructor
  · have hhit : synHit (buildQuery c1Field) = some (synCandidate "date_of_birth") := rfl
    have hs : search_canonical_field_batch true emptyVSearch (queriesFor [] [c1Field])
        = [[synCandidate "date_of_birth"]] := by
      rw [search_batch_ready _ _ (by decide)]
      have hq : queriesFor [] [c1Field] = [buildQuery c1Field] := rfl
      rw [hq]
      simp [distribute, hhit]
    rw [map_template_fields, hs]
    obtain ⟨h1, h2, h3, h4⟩ :=
      applyCandidates_syn c1Field "date_of_birth" (by decide)
    have hcl : classify [] c1Field = none := rfl
    simp [mapGo, hcl, h1, h3]
  · rfl

/-- C3 (amended): for a field whose *saved-map lookup* (the last stored
record whose `id` or `name` equals the field id) carries status `approved` or
`manual_override`, re-running the mapping pass copies that record's `name`
and `mapping_status` unchanged — for any search availability and any search
results — and the batch submits exactly the queries it would submit without
the field. -/
theorem historical_preservation_lookup (is_ready : Bool)
    (vs : List String → List (List Candidate))
    (saved pre post : List MapRec) (f e : MapRec)
    (h : classify saved f = some e) :
    ((map_template_fields is_ready vs saved (pre ++ f :: post))[pre.length]?).map
        (fun g => (g.name, g.mapping_status))
      = some (e.name, e.mapping_status)
    ∧ queriesFor saved (pre ++ f :: post) = queriesFor saved (pre ++ post) := by
  constructor
  · rw [map_template_fields, mapGo_append_get]
    simp [mapGo, h, preserveUpdate]
  · rw [queriesFor_append, queriesFor_append, queriesFor_cons_preserved saved f post e h]

/-- Witness for C3 (amended): a single approved stored record for field id
`f1` is found by the lookup and copied verbatim, and no query is built. -/
theorem historical_preservation_witness :
    ((map_template_fields true emptyVSearch [w3Rec] ([] ++ w3Field :: []))[(0 : ℕ)]?).map
        (fun g => (g.name, g.mapping_status))
      = some (w3Rec.name, w3Rec.mapping_status)
    ∧ queriesFor [w3Rec] ([] ++ w3Field :: []) = queriesFor [w3Rec] ([] ++ []) :=
  historical_preservation_lookup true emptyVSearch [w3Rec] [] [] w3Field w3Rec (by decide)

/-- Counterexample for C3 as stated: a prior `approved` record for field id
`fldA` exists (`cex3A`), but a later record whose resolved `name` is the
literal `fldA` shadows it in the saved map, so the re-run neither reuses the
approved record's `name`/`mapping_status` nor skips the query for the
field. -/
theorem historical_preservation_shadow_cex :
    (cex3Saved.any (fun m => m.id == some "fldA" && m.mapping_status == some "approved")) = true
    ∧ (map_template_fields false emptyVSearch cex3Saved [cex3Field]).map
        (fun g => (g.name, g.mapping_status))
      = [(some "fldA", some "suggest_new")]
    ∧ queriesFor cex3Saved [cex3Field] = [buildQuery cex3Field] := by
  decide

/-- C2: the confidence tiering on the best-candidate distance is half-open on
the low side: `d < 0.40` yields `High`/`auto`; `0.40 ≤ d < 0.75` (so in
particular `d = 0.40`) yields `Medium`/`pending_review`; `d ≥ 0.75`, or an
empty candidate list, yields `suggest_new` with no canonical id assigned and
`name` falling back to the field's original id. -/
theorem similarity_tier_boundaries (f : MapRec) (top : Candidate) (rest : List Candidate) :
    ((top.score < 2/5 →
        (applyCandidates f (top :: rest)).confidence = some "High"
        ∧ (applyCandidates f (top :: rest)).mapping_status = some "auto")
     ∧ (2/5 ≤ top.score → top.score < 3/4 →
        (applyCandidates f (top :: rest)).confidence = some "Medium"
        ∧ (applyCandidates f (top :: rest)).mapping_status = some "pending_review")
     ∧ (3/4 ≤ top.score →
        (applyCandidates f (top :: rest)).mapping_status = some "suggest_new"
        ∧ (applyCandidates f (top :: rest)).name = fieldIdOf f
        ∧ ((applyCandidates f (top :: rest)).mapping_proposal.bind
            (fun p => p.canonical_field_id)) = none))
    ∧ ((applyCandidates f []).mapping_status = some "suggest_new"
       ∧ (applyCandidates f []).name = fieldIdOf f
       ∧ ((applyCandidates f []).mapping_proposal.bind
            (fun p => p.canonical_field_id)) = none) := by
  refine ⟨⟨fun h => ?_, fun h1 h2 => ?_, fun h => ?_⟩, ?_⟩
  · simp [applyCandidates, tierOf, h]
  · have h1' : ¬ top.score < 2/5 := not_lt.mpr h1
    simp [applyCandidates, tierOf, h1', h2]
  · have h1' : ¬ top.score < 2/5 := not_lt.mpr (le_trans (by norm_num) h)
    have h2' : ¬ top.score < 3/4 := not_lt.mpr h
    simp [applyCandidates, tierOf, h1', h2', pyOr]
  · simp [applyCandidates, tierOf, pyOr]

/-- Witness for C2 at the boundary itself: a best-candidate distance of
exactly 0.40 lands in the Medium / pending-review tier. -/
theorem similarity_tier_boundaries_witness :
    (applyCandidates w2Field [w2Cand]).confidence = some "Medium"
    ∧ (applyCandidates w2Field [w2Cand]).mapping_status = some "pending_review" :=
  (similarity_tier_boundaries w2Field w2Cand []).1.2.1 (by norm_num [w2Cand])
    (by norm_num [w2Cand])

/-- Skipping a prefix of records that do not match the field id leaves them
untouched and defers to the rest of the list. -/
theorem updateAt_append_skip (t fid c s u : String) (pre rest : List MapRec)
    (hpre : ∀ g ∈ pre, recordFid g ≠ fid) :
    updateAt t fid c s u (pre ++ rest)
      = (pre ++ (updateAt t fid c s u rest).1, (updateAt t fid c s u rest).2) := by
  induction pre with
  | nil => simp
  | cons g gs ih =>
    have hg : recordFid g ≠ fid := hpre g (List.mem_cons_self g gs)
    have ih' := ih (fun x hx => hpre x (List.mem_cons_of_mem g hx))
    simp [updateAt, hg, ih']

/-- C4: `update_mapping` on the first record matching the field id appends
exactly one correction-log entry `{ai_guess := A, human_correction := B}`
when the prior automatic proposal `A` differs from the supplied id `B` (and
none when they coincide), and overwrites the located record with `name = B`,
the supplied status, confidence forced to `High`, `mapping_source`
`manual_correction`, and the proposal's canonical id set to `B`. -/
theorem update_mapping_correction_log
    (template_id field_id B status user A : String)
    (pre post : List MapRec) (f : MapRec) (p : Proposal)
    (hpre : ∀ g ∈ pre, recordFid g ≠ field_id)
    (hf : recordFid f = field_id)
    (hprop : f.mapping_proposal = some p)
    (hA : p.canonical_field_id = some A)
    (hAne : A ≠ "") :
    (A ≠ B →
      (update_mapping template_id field_id B status user (pre ++ f :: post)).log
        = [{ template := template_id, field_label := f.label.getD "",
             ai_guess := A, human_correction := B }])
    ∧ (A = B →
      (update_mapping template_id field_id B status user (pre ++ f :: post)).log = [])
    ∧ (update_mapping template_id field_id B status user (pre ++ f :: post)).mappings
        = pre ++ overwriteRecord B status user f :: post
    ∧ (update_mapping template_id field_id B status user (pre ++ f :: post)).ok = true
    ∧ (overwriteRecord B status user f).name = some B
    ∧ (overwriteRecord B status user f).mapping_status = some status
    ∧ (overwriteRecord B status user f).confidence = some "High"
    ∧ (overwriteRecord B status user f).mapping_source = some "manual_correction"
    ∧ (overwriteRecord B status user f).mapping_proposal
        = some { p with canonical_field_id := some B } := by
  have hup := updateAt_append_skip template_id field_id B status user pre (f :: post) hpre
  have hcons : updateAt template_id field_id B status user (f :: post)
      = (overwriteRecord B status user f :: post,
         correctionEntries template_id field_id B f) := by
    simp [updateAt, hf]
  refine ⟨?_, ?_, ?_, rfl, ?_, ?_, ?_, ?_, ?_⟩
  · intro hAB
    simp [update_mapping, hup, hcons, correctionEntries, hprop, hA, pyTruthy, hAne, hAB]
  · intro hAB
    subst hAB
    simp [update_mapping, hup, hcons, correctionEntries, hprop, hA, pyTruthy]
  · simp [update_mapping, hup, hcons]
  · simp [overwriteRecord]
  · simp [overwriteRecord]
  · simp [overwriteRecord]
  · simp [overwriteRecord]
  · simp [overwriteRecord, hprop]

/-- Witness for C4: correcting `f2` from the automatic proposal `last_name`
to `first_name` logs exactly one entry; re-supplying `last_name` logs
nothing; the record is overwritten as specified. -/
theorem update_mapping_correction_log_witness :
    (update_mapping "t.pdf" "f2" "first_name" "manual_override" "human" [w4Rec]).log
      = [{ template := "t.pdf", field_label := "Surname",
           ai_guess := "last_name", human_correction := "first_name" }]
    ∧ (update_mapping "t.pdf" "f2" "last_name" "manual_override" "human" [w4Rec]).log = []
    ∧ (update_mapping "t.pdf" "f2" "first_name" "manual_override" "human" [w4Rec]).mappings
      = [] ++ overwriteRecord "first_name" "manual_override" "human" w4Rec :: []
    ∧ (overwriteRecord "first_name" "manual_override" "human" w4Rec).name = some "first_name"
    ∧ (overwriteRecord "first_name" "manual_override" "human" w4Rec).confidence = some "High" := by
  have h1 := update_mapping_correction_log "t.pdf" "f2" "first_name" "manual_override"
    "human" "last_name" [] [] w4Rec w4Prop (by simp) rfl rfl rfl (by decide)
  have h2 := update_mapping_correction_log "t.pdf" "f2" "last_name" "manual_override"
    "human" "last_name" [] [] w4Rec w4Prop (by simp) rfl rfl rfl (by decide)
  exact ⟨h1.1 (by decide), h2.2.1 rfl, h1.2.2.1, h1.2.2.2.2.1, h1.2.2.2.2.2.2.1⟩

/-- C7 (amended): with the page's headers sorted top to bottom, the section
assigned to a field with a rectangle is the nearest header strictly above the
field's *upper* rectangle edge (the code keys the scan on
`max(rect[1], rect[3])`), defaulting to `"General"` when no header lies above
that edge. -/
theorem section_from_upper_edge (headers : List (ℚ × String)) (r : Rect)
    (hsorted : headers.Chain' (fun a b => b.1 ≤ a.1)) :
    detectSection headers (some r)
      = (((headers.filter (fun p => max r.y1 r.y2 < p.1)).getLast?).map Prod.snd).getD
          "General" := by
  rw [detectSection]
  exact sectionScan_eq_filter_last _ _ _ hsorted

/-- Witness for C7 (amended): two headers above a field with upper edge 20
resolve to the lower of the two (the nearest one above the field). -/
theorem section_from_upper_edge_witness :
    detectSection [((30 : ℚ), "Top"), (25, "Mid")] (some ⟨0, 10, 50, 20⟩)
      = ((([((30 : ℚ), "Top"), (25, "Mid")].filter
            (fun p => max (10 : ℚ) 20 < p.1)).getLast?).map Prod.snd).getD "General" :=
  section_from_upper_edge [((30 : ℚ), "Top"), (25, "Mid")] ⟨0, 10, 50, 20⟩
    (by simp [List.chain'_cons]; norm_num)

/-- Counterexample for C7 as stated: a header at `y = 15` lies above the
field's lower edge (10) but below its upper edge (20); the spec's lower-edge
rule assigns section `"S"`, while the code, scanning from the upper edge,
returns `"General"`. -/
theorem section_lower_edge_cex :
    detectSection [((15 : ℚ), "S")] (some ⟨0, 10, 50, 20⟩) = "General"
    ∧ detectSectionSpecLower [((15 : ℚ), "S")] (some ⟨0, 10, 50, 20⟩) = "S"
    ∧ ("General" : String) ≠ "S" := by
  refine ⟨?_, ?_, by decide⟩ <;>
    norm_num [detectSection, detectSectionSpecLower, sectionScan]

/-- C5: when the mapping file exists, is strictly newer than the template,
and stores at least one mapping, `analyze_template` returns the stored list
verbatim and performs no document scan and no mapping-engine run. -/
theorem analyze_cache_hit_verbatim (st : CacheState) (scan : Unit → List MapRec)
    (engine : List MapRec → List MapRec) (ms : List MapRec)
    (hex : st.mapping_exists = true)
    (hnew : st.pdf_mtime < st.map_mtime)
    (hsaved : st.saved_mappings = some ms)
    (hlen : 0 < ms.length) :
    analyze_template st scan engine = (ms, false) := by
  have hge : st.pdf_mtime ≤ st.map_mtime := le_of_lt hnew
  simp [analyze_template, analyzeCacheCheck, hex, hge, hsaved, hlen]

/-- Witness for C5 on a concrete cache state (mtime 200 vs 100, one stored
mapping). -/
theorem analyze_cache_hit_verbatim_witness :
    analyze_template w5State (fun _ => []) (fun l => l) = ([w5Rec], false) :=
  analyze_cache_hit_verbatim w5State (fun _ => []) (fun l => l) [w5Rec]
    rfl (by norm_num [w5State]) rfl (by norm_num)

/-- C6: for an acroform checkbox with a non-empty record value, a truthy
value (lower-cased member of `true`/`yes`/`1`/`on`) sets the widget to the
first export option (`/Yes` when none is recorded) — which is the first
non-off option whenever the recorded options contain no `/Off`, and is never
`/Off` itself — while any other value leaves the widget untouched. -/
theorem checkbox_fill_truthy_first_option (record : List (String × String))
    (f : MapRec) (i val : String)
    (hsrc : f.source = some "acroform")
    (hid : f.id = some i) (hine : i ≠ "")
    (hty : f.ftype = some "checkbox")
    (hval : lookupRecord record (f.name.getD i) = some val)
    (hne : pyStrip val ≠ "")
    (hoff : "/Off" ∉ f.export_options) :
    (truthyTokens.contains (pyLower val) = true →
      fillDecision record f = .setAcro i (f.export_options.headD "/Yes")
      ∧ f.export_options.headD "/Yes" ≠ "/Off")
    ∧ (truthyTokens.contains (pyLower val) = false →
      fillDecision record f = .skip) := by
  have hkey : f.name.getD (f.id.getD "") = f.name.getD i := by rw [hid]; rfl
  constructor
  · intro h
    have hmem : pyLower val ∈ truthyTokens := by simpa using h
    constructor
    · simp [fillDecision, hkey, hval, hne, hsrc, hid, pyTruthy, hine, hty, hmem]
    · cases hopt : f.export_options with
      | nil => simp
      | cons a l =>
        have : a ∈ f.export_options := by rw [hopt]; exact List.mem_cons_self a l
        simp only [List.headD_cons]
        exact fun hc => hoff (hc ▸ this)
  · intro h
    have hmem : pyLower val ∉ truthyTokens := by simpa using h
    simp [fillDecision, hkey, hval, hne, hsrc, hid, pyTruthy, hine, hty, hmem]

/-- Witness for C6: value `yes` with options `["/Yes", "/On"]` selects
`/Yes`; value `no` leaves the widget untouched. -/
theorem checkbox_fill_truthy_first_option_witness :
    (fillDecision [("is_married", "yes")] cb6Field = .setAcro "chk1" "/Yes"
     ∧ ("/Yes" : String) ≠ "/Off")
    ∧ fillDecision [("is_married", "no")] cb6Field = .skip :=
  ⟨(checkbox_fill_truthy_first_option [("is_married", "yes")] cb6Field "chk1" "yes"
      rfl rfl (by decide) rfl (by decide) (by decide) (by decide)).1 (by decide),
   (checkbox_fill_truthy_first_option [("is_married", "no")] cb6Field "chk1" "no"
      rfl rfl (by decide) rfl (by decide) (by decide) (by decide)).2 (by decide)⟩

/-- C8 (amended): the overlay parameters for a field rectangle — text clipped
to the normalised rectangle, font size `min(12, height × 0.8)`, a fixed
left inset of 2 units, and a draw height equal to the exactly-centred
baseline *plus a fixed one-unit adjustment*. -/
theorem overlay_draw_params (r : Rect) :
    overlayDrawParams r
      = { clip_x := min r.x1 r.x2, clip_y := min r.y1 r.y2,
          clip_w := |r.x2 - r.x1|, clip_h := |r.y2 - r.y1|,
          font_size := min 12 (|r.y2 - r.y1| * (4/5)),
          draw_x := min r.x1 r.x2 + 2,
          draw_y := drawYCentered (min r.y1 r.y2) |r.y2 - r.y1|
              (min 12 (|r.y2 - r.y1| * (4/5))) + 1 } := by
  simp only [overlayDrawParams, draw_text_field, drawYCentered, DrawParams.mk.injEq,
    true_and, and_true]
  ring

/-- Counterexample for C8 as stated: for the spec's own rectangle
`[100, 700, 250, 715]` the font size is indeed 12, but the draw offset is
702.5 while the exactly-centred offset for a 12-unit font in the 15-unit band
is 701.5 — the draw position is one unit above centre, not centred. -/
theorem overlay_centering_cex :
    (overlayDrawParams ⟨100, 700, 250, 715⟩).font_size = 12
    ∧ (overlayDrawParams ⟨100, 700, 250, 715⟩).draw_y = 1405/2
    ∧ drawYCentered 700 15 12 = 1403/2
    ∧ ((1405 : ℚ)/2) ≠ 1403/2 := by
  refine ⟨?_, ?_, ?_, ?_⟩ <;> norm_num [overlayDrawParams, draw_text_field, drawYCentered]

/-- C9 (amended): the audit entry depends on the input record only through
its key list, its `registered_name` and its `operator_id`; every other
payload value is absent from the persisted run-history entry and snapshot. -/
theorem audit_payload_noninterference (r1 r2 : List (String × String))
    (template_filename run_id timestamp date_dir : String) (snapshot : List MapRec)
    (hkeys : r1.map Prod.fst = r2.map Prod.fst)
    (hreg : lookupRecord r1 "registered_name" = lookupRecord r2 "registered_name")
    (hop : lookupRecord r1 "operator_id" = lookupRecord r2 "operator_id") :
    buildRunData r1 template_filename run_id timestamp date_dir snapshot
      = buildRunData r2 template_filename run_id timestamp date_dir snapshot := by
  simp [buildRunData, hkeys, hreg, hop]

/-- Witness for C9 (amended): two payloads differing only in the
`account_number` value produce identical audit entries. -/
theorem audit_payload_noninterference_witness :
    buildRunData [("registered_name", "A"), ("operator_id", "o"), ("account_number", "111")]
        "t.pdf" "rid" "ts" "d" []
      = buildRunData [("registered_name", "A"), ("operator_id", "o"), ("account_number", "222")]
        "t.pdf" "rid" "ts" "d" [] :=
  audit_payload_noninterference _ _ "t.pdf" "rid" "ts" "d" []
    (by decide) (by decide) (by decide)

/-- Counterexample for C9 as stated: the run-history entry persists the
payload's `operator_id` value verbatim, and the snapshot id / snapshot file
name embed the sanitised `registered_name` value. -/
theorem audit_payload_value_cex :
    (buildRunData cex9Rec "t.pdf" "runid" "ts" "d" []).operator_id = "bob"
    ∧ lookupRecord cex9Rec "operator_id" = some "bob"
    ∧ snapshotFileName (buildRunData cex9Rec "t.pdf" "runid" "ts" "d" []).mapping_snapshot_id
        = "Alice_runid_mapping.json"
    ∧ lookupRecord cex9Rec "registered_name" = some "Alice" := by
  decide

/-- C10: `update_mapping` called with a field id that matches no stored
record still returns `True`, appends no correction-log entry, and hands the
unchanged mapping list back to `save_mappings`. -/
theorem update_mapping_no_match_ok (t fid c s u : String) (ms : List MapRec)
    (h : ∀ g ∈ ms, recordFid g ≠ fid) :
    update_mapping t fid c s u ms = { mappings := ms, log := [], ok := true } := by
  have hup : updateAt t fid c s u ms = (ms, []) := by
    induction ms with
    | nil => rfl
    | cons g gs ih =>
      have hg : recordFid g ≠ fid := h g (List.mem_cons_self g gs)
      have ih' := ih (fun x hx => h x (List.mem_cons_of_mem g hx))
      simp [updateAt, hg, ih']
  simp [update_mapping, hup]

/-- Witness for C10: updating field id `zzz`, which matches nothing, leaves
the single-record list unchanged and still succeeds. -/
theorem update_mapping_no_match_ok_witness :
    update_mapping "t.pdf" "zzz" "first_name" "manual_override" "human" [w4Rec]
      = { mappings := [w4Rec], log := [], ok := true } :=
  update_mapping_no_match_ok "t.pdf" "zzz" "first_name" "manual_override" "human"
    [w4Rec] (by decide)

end BankDoc
